import Mathlib

/-!
Shallow embedding of the HDB resale-data processor
(`src/data_processor.py` and `src/api/app.py`) and proofs about it.

Cell values of the in-memory table (`self.df`) are modelled by the
inductive `Value`: pandas `NaN`/`NaT`/`None` collapse to `Value.vnull`,
numbers are exact rationals (`Value.vnum`), strings are `Value.vstr`,
and datetime values are `Value.vdate`.  A dataframe is a list of `Row`s
with the fixed column set the processor works with.  Column-level dtype
effects (e.g. `.str` raising on an all-numeric column) are below the
granularity of this row-wise model; the elementwise semantics used by
pandas on object-dtype columns is what is embedded.
-/

namespace HDB

/-- A calendar date, at the granularity the source uses
(`.dt.year` and equality/ordering of parsed months). -/
structure Date where
  year : Int
  month : Nat
  day : Nat
  deriving DecidableEq, Repr

/-- A dataframe cell.  `vnull` stands for pandas `NaN`/`NaT`. -/
inductive Value where
  | vnull : Value
  | vnum (q : ℚ) : Value
  | vstr (s : String) : Value
  | vdate (d : Date) : Value
  deriving DecidableEq, Repr

/-- One row of the processor's dataframe, with the columns of the
cleaned-table schema.  Raw tables carry `vnull` in the derived columns
(`price_per_sqm`, `lease_remaining`); `_clean_data` assigns them. -/
structure Row where
  month : Value
  town : Value
  flat_type : Value
  floor_area_sqm : Value
  resale_price : Value
  lease_commence_date : Value
  price_per_sqm : Value
  lease_remaining : Value
  deriving DecidableEq, Repr

/-- The in-memory table (`self.df` when it is not `None`). -/
abbrev Table := List Row

/-! ### Character-level helpers for Python `str.title` and `str.strip`

ASCII model of Python's casing: towns in this dataset are ASCII. -/

/-- ASCII letter test (model of Python `str.isalpha` on this data). -/
def isAlphaC (c : Char) : Bool :=
  (65 ≤ c.toNat && c.toNat ≤ 90) || (97 ≤ c.toNat && c.toNat ≤ 122)

/-- ASCII uppercase conversion. -/
def upC (c : Char) : Char :=
  if 97 ≤ c.toNat && c.toNat ≤ 122 then Char.ofNat (c.toNat - 32) else c

/-- ASCII lowercase conversion. -/
def lowC (c : Char) : Char :=
  if 65 ≤ c.toNat && c.toNat ≤ 90 then Char.ofNat (c.toNat + 32) else c

/-- Whitespace test: the characters Python `str.strip` removes
(tab, LF, VT, FF, CR, space). -/
def isWS (c : Char) : Bool :=
  c.toNat == 32 || (9 ≤ c.toNat && c.toNat ≤ 13)

/-- Python `str.title` over a character list.  The boolean flag records
whether the previous character was alphabetic: an alphabetic character
is uppercased at a word start (previous char non-alphabetic) and
lowercased otherwise. -/
def titleAux : Bool → List Char → List Char
  | _, [] => []
  | b, c :: cs =>
      (if isAlphaC c then (if b then lowC c else upC c) else c)
        :: titleAux (isAlphaC c) cs

/-- Python `str.title`. -/
def titleStr (s : String) : String :=
  String.mk (titleAux false s.data)

/-- Remove trailing whitespace from a character list. -/
def stripTrail (l : List Char) : List Char :=
  (l.reverse.dropWhile isWS).reverse

/-- Python `str.strip` over a character list: drop leading and trailing
whitespace. -/
def stripChars (l : List Char) : List Char :=
  stripTrail (l.dropWhile isWS)

/-- Python `str.strip`. -/
def stripStr (s : String) : String :=
  String.mk (stripChars s.data)

/-! ### Numeric and date coercion (`pd.to_numeric` / `pd.to_datetime`,
both with `errors=coerce`) -/

/-- All characters are ASCII digits. -/
def allDigits (l : List Char) : Bool :=
  l.all fun c => 48 ≤ c.toNat && c.toNat ≤ 57

/-- Value of a digit list read in base 10. -/
def digitsToNat (l : List Char) : Nat :=
  l.foldl (fun acc c => acc * 10 + (c.toNat - 48)) 0

/-- Split a character list at every occurrence of a separator
character (the splitting `str.split` / `splitOn` performs). -/
def splitOnC (sep : Char) : List Char → List (List Char)
  | [] => [[]]
  | c :: cs =>
      match splitOnC sep cs with
      | [] => if c = sep then [[], []] else [[c]]
      | g :: gs => if c = sep then [] :: g :: gs else (c :: g) :: gs

/-- Parse a decimal number literal over characters: optional sign,
digits, optional fractional part (`"400000"`, `"85.0"`, `"-3.5"`,
`".5"`).  Exponent notation is not modelled (the dataset never uses
it).  Returns `none` for anything else, matching
`pd.to_numeric(errors=coerce)` giving NaN. -/
def parseNumChars (l : List Char) : Option ℚ :=
  let t := stripChars l
  let (neg, u) : Bool × List Char :=
    match t with
    | '-' :: rest => (true, rest)
    | '+' :: rest => (false, rest)
    | _ => (false, t)
  let build (a b : List Char) : Option ℚ :=
    if (a.length + b.length ≠ 0) && allDigits a && allDigits b then
      let q : ℚ := (digitsToNat a : ℚ) + (digitsToNat b : ℚ) / (10 ^ b.length : ℚ)
      some (if neg then -q else q)
    else none
  match splitOnC '.' u with
  | [a] => build a []
  | [a, b] => build a b
  | _ => none

/-- Parse a decimal number literal. -/
def parseNumStr (s : String) : Option ℚ :=
  parseNumChars s.data

/-- Parse a date string: `"YYYY"`, `"YYYY-MM"` or `"YYYY-MM-DD"` with a
4-digit year, the formats this dataset's `month` and
`lease_commence_date` strings use; other strings coerce to null. -/
def parseDateStr (s : String) : Option Date :=
  let good (p : List Char) (lo hi : Nat) : Bool :=
    p.length == 2 && allDigits p && lo ≤ digitsToNat p && digitsToNat p ≤ hi
  let year (y : List Char) : Bool := y.length == 4 && allDigits y
  match splitOnC '-' (stripChars s.data) with
  | [y] => if year y then some ⟨digitsToNat y, 1, 1⟩ else none
  | [y, m] =>
      if year y && good m 1 12 then some ⟨digitsToNat y, digitsToNat m, 1⟩ else none
  | [y, m, d] =>
      if year y && good m 1 12 && good d 1 31 then
        some ⟨digitsToNat y, digitsToNat m, digitsToNat d⟩ else none
  | _ => none

/-- Model of `pd.to_numeric(errors=coerce)` on one cell: numbers pass through,
numeric-looking strings parse, everything else becomes null. -/
def toNumeric : Value → Value
  | .vnum q => .vnum q
  | .vstr s => match parseNumStr s with
      | some q => .vnum q
      | none => .vnull
  | _ => .vnull

/-- Model of `pd.to_datetime(errors=coerce)` on one cell.  Dates pass through
and strings parse.  An integer is a nanosecond offset from the epoch,
so year-like integers (e.g. the sample's `lease_commence_date = 1985`)
land inside 1970; the model maps integers within the first epoch year
to 1970-01-01 (sub-year precision dropped — nothing downstream reads
it) and all other numerics to null. -/
def parseDate : Value → Value
  | .vdate d => .vdate d
  | .vstr s => match parseDateStr s with
      | some d => .vdate d
      | none => .vnull
  | .vnum q =>
      if q.den == 1 && 0 ≤ q.num && q.num < 31536 * 10 ^ 12 then .vdate ⟨1970, 1, 1⟩
      else .vnull
  | .vnull => .vnull

/-! ### Median and the cleaning pipeline (`_clean_data`) -/

/-- The numeric (non-null) entries of a column, in order — the values
pandas `median`/`mean` aggregate over (`skipna`). -/
def validNums (l : List Value) : List ℚ :=
  l.filterMap fun v => match v with
    | .vnum q => some q
    | _ => none

/-- Insert into a sorted list, at the first admissible place. -/
def insertLe {α : Type} (le : α → α → Bool) (a : α) : List α → List α
  | [] => [a]
  | b :: l => if le a b then a :: b :: l else b :: insertLe le a l

/-- Stable insertion sort under a boolean order (the sorting
`sorted`, `groupby(sort=True)` and `Series.median` perform). -/
def sortLe {α : Type} (le : α → α → Bool) (l : List α) : List α :=
  l.foldr (insertLe le) []

/-- Numeric ascending sort. -/
def sortQ (l : List ℚ) : List ℚ :=
  sortLe (fun a b => decide (a ≤ b)) l

/-- pandas `Series.median` over the non-null values: middle element of
the sorted list, or the mean of the two middle elements; `none` (NaN)
on an empty list. -/
def median (l : List ℚ) : Option ℚ :=
  let s := sortQ l
  if s.length = 0 then none
  else if s.length % 2 = 1 then s.get? (s.length / 2)
  else match s.get? (s.length / 2 - 1), s.get? (s.length / 2) with
    | some a, some b => some ((a + b) / 2)
    | _, _ => none

/-- Null-fill (`fillna(median)`): nulls take the column median when it exists
(filling with NaN leaves the null in place). -/
def fillWith (m : Option ℚ) : Value → Value
  | .vnull => match m with
      | some q => .vnum q
      | none => .vnull
  | v => v

/-- Row action of step 1: parse the `month` cell. -/
def monthRow (r : Row) : Row :=
  { r with month := parseDate r.month }

/-- Step 1 of `_clean_data`: parse the `month` column. -/
def monthStep (t : Table) : Table :=
  t.map monthRow

/-- The median of the coerced `resale_price` column, over the
still-numeric entries — computed on the full table, before the outlier
filter. -/
def resaleMedian (t : Table) : Option ℚ :=
  median (validNums (t.map fun r => toNumeric r.resale_price))

/-- The median of the coerced `floor_area_sqm` column. -/
def areaMedian (t : Table) : Option ℚ :=
  median (validNums (t.map fun r => toNumeric r.floor_area_sqm))

/-- Row action of step 2, given the two column medians. -/
def numRow (mp ma : Option ℚ) (r : Row) : Row :=
  { r with
    resale_price := fillWith mp (toNumeric r.resale_price)
    floor_area_sqm := fillWith ma (toNumeric r.floor_area_sqm) }

/-- Step 2 of `_clean_data`: coerce `resale_price` and
`floor_area_sqm` to numeric and null-fill each with its column median.
The two columns are independent, so the source's sequential loop is a
simultaneous update. -/
def numericStep (t : Table) : Table :=
  t.map (numRow (resaleMedian t) (areaMedian t))

/-- Division of two cells, defined on numeric cells.  Division of a
nonzero float by zero gives ±inf and 0/0 gives NaN in the source; both
are collapsed to null here (nothing downstream distinguishes them —
spec §9 flags the missing guard). -/
def divV : Value → Value → Value
  | .vnum p, .vnum a => if a = 0 then .vnull else .vnum (p / a)
  | _, _ => .vnull

/-- Row action of step 3. -/
def priceRow (r : Row) : Row :=
  { r with price_per_sqm := divV r.resale_price r.floor_area_sqm }

/-- Step 3 of `_clean_data`: `price_per_sqm = resale_price /
floor_area_sqm`. -/
def priceStep (t : Table) : Table :=
  t.map priceRow

/-- Value of `lease_remaining` derived from a parsed
`lease_commence_date` cell: `99 - (current_year - lease_year)`, null
when the date is null. -/
def leaseVal (currentYear : Int) : Value → Value
  | .vdate d => .vnum ((99 - (currentYear - d.year) : Int) : ℚ)
  | _ => .vnull

/-- Row action of step 4. -/
def leaseRow (currentYear : Int) (r : Row) : Row :=
  let lcd := parseDate r.lease_commence_date
  { r with
    lease_commence_date := lcd
    lease_remaining := leaseVal currentYear lcd }

/-- Step 4 of `_clean_data`: parse `lease_commence_date` and derive
`lease_remaining`.  With `errors=coerce` the conversion never raises,
so the source's `except` branch (which would null the whole column) is
not taken. -/
def leaseStep (currentYear : Int) (t : Table) : Table :=
  t.map (leaseRow currentYear)

/-- Normalization of one `town` cell:
`town.str.title().str.strip()` — title first, then strip; non-string
cells become NaN under the `.str` accessor. -/
def titleV : Value → Value
  | .vstr s => .vstr (stripStr (titleStr s))
  | _ => .vnull

/-- Row action of step 5. -/
def townRow (r : Row) : Row :=
  { r with town := titleV r.town }

/-- Step 5 of `_clean_data`: normalize the `town` column. -/
def townStep (t : Table) : Table :=
  t.map townRow

/-- The outlier predicate of step 6: `resale_price > 10000 AND
floor_area_sqm > 20`.  Comparisons against NaN are false in pandas, so
null cells fail the predicate. -/
def passesOutlier (r : Row) : Bool :=
  (match r.resale_price with
    | .vnum q => decide (q > 10000)
    | _ => false)
  && (match r.floor_area_sqm with
    | .vnum a => decide (a > 20)
    | _ => false)

/-- Step 6 of `_clean_data`: drop outlier rows. -/
def filterStep (t : Table) : Table :=
  t.filter passesOutlier

/-- Model of `_clean_data`: a no-op on an empty table, otherwise the six steps
in source order. -/
def cleanData (currentYear : Int) (t : Table) : Table :=
  if t = [] then t
  else filterStep (townStep (leaseStep currentYear (priceStep (numericStep (monthStep t)))))

/-! ### Record fetcher (`_load_from_api`)

One page request either yields a valid envelope (a reported `total` and
a list of records) or fails; `err` covers both the transport errors
(`requests.RequestException`) and the envelope-validation `ValueError`
of the source, which the `except` clause treats identically. -/

/-- Outcome of one page request. -/
inductive PageResp (α : Type) where
  | ok (total : Nat) (records : List α) : PageResp α
  | err : PageResp α

/-- One error type for the fetcher's zero-pages failure (the spec's
`FetchError`). -/
inductive FetchError where
  | fetchFailed : FetchError
  deriving DecidableEq

/-- The `while True` pagination loop of `_load_from_api`, run for at
most `fuel` iterations against a remote source `pages` mapping the
request offset to its response.  `none` means the loop is still
running after `fuel` iterations; `some` is the loop's outcome: the
accumulated records, or the propagated error when no page had
succeeded (`offset == 0`). -/
def fetchLoop {α : Type} (pages : Nat → PageResp α) :
    Nat → Nat → Option Nat → List α → Option (Except FetchError (List α))
  | 0, _, _, _ => none
  | fuel + 1, offset, totalSoFar, acc =>
      match pages offset with
      | .err => if 0 < offset then some (.ok acc) else some (.error .fetchFailed)
      | .ok tot recs =>
          let total := totalSoFar.getD tot
          let acc2 := acc ++ recs
          let offset2 := offset + recs.length
          if total ≤ offset2 then some (.ok acc2)
          else fetchLoop pages fuel offset2 (some total) acc2

/-- Model of `_load_from_api`: run the pagination loop from offset 0 with
no total yet and no accumulated records. -/
def fetchAll {α : Type} (pages : Nat → PageResp α) (fuel : Nat) :
    Option (Except FetchError (List α)) :=
  fetchLoop pages fuel 0 none []

/-- The pagination loop never finishes against `pages`, whatever
iteration bound it is given. -/
def fetchDiverges {α : Type} (pages : Nat → PageResp α) : Prop :=
  ∀ fuel, fetchAll pages fuel = none

/-! ### Cache store (`_save_cache` / `_load_from_cache`)

The on-disk artifact is modelled at token level: a parquet file stores
the typed table losslessly (pandas preserves dtypes through parquet),
while a CSV file is a grid of textual fields, each either a numeric
token, a text token or an empty field.  `to_csv` renders a float with
its round-trippable `repr` (numeric token), a datetime as its date
string (text token) and NaN as an empty field; `read_csv` re-infers a
number from a numeric-looking field and leaves other non-empty fields
as strings — so a string field that looks numeric and a number render
to the same token, which is exactly pandas' lossiness. -/

/-- Suffix test on paths (Python `str.endswith`), used for the cache
file-extension dispatch. -/
def endsWithPath (p suf : String) : Bool :=
  suf.data.isSuffixOf p.data

/-- One field of a CSV artifact. -/
inductive CsvCell where
  | num (q : ℚ) : CsvCell
  | text (s : String) : CsvCell
  | empty : CsvCell
  deriving DecidableEq, Repr

/-- Left-pad a two-digit component. -/
def pad2 (n : Nat) : String :=
  if n < 10 then "0" ++ toString n else toString n

/-- Rendering of a datetime cell by `to_csv` (`YYYY-MM-DD`). -/
def dateToString (d : Date) : String :=
  toString d.year ++ "-" ++ pad2 d.month ++ "-" ++ pad2 d.day

/-- Rendering of one cell by `to_csv`, followed by `read_csv`'s
tokenisation: empty strings and nulls give an empty field,
numeric-looking strings merge with numbers into a numeric token. -/
def encodeCell : Value → CsvCell
  | .vnull => .empty
  | .vnum q => .num q
  | .vstr s =>
      if s = "" then .empty
      else match parseNumStr s with
        | some q => .num q
        | none => .text s
  | .vdate d => .text (dateToString d)

/-- Reading one CSV field back (`read_csv` type inference). -/
def decodeCell : CsvCell → Value
  | .empty => .vnull
  | .num q => .vnum q
  | .text s => .vstr s

/-- One CSV line for a row, columns in schema order. -/
def encodeRow (r : Row) : List CsvCell :=
  [encodeCell r.month, encodeCell r.town, encodeCell r.flat_type,
   encodeCell r.floor_area_sqm, encodeCell r.resale_price,
   encodeCell r.lease_commence_date, encodeCell r.price_per_sqm,
   encodeCell r.lease_remaining]

/-- Reading one CSV line back into a row (a line of any other width
yields an all-null row; `encodeRow` always writes eight fields). -/
def decodeRow : List CsvCell → Row
  | [m, tw, ft, fa, rp, lcd, pps, lr] =>
      ⟨decodeCell m, decodeCell tw, decodeCell ft, decodeCell fa,
       decodeCell rp, decodeCell lcd, decodeCell pps, decodeCell lr⟩
  | _ => ⟨.vnull, .vnull, .vnull, .vnull, .vnull, .vnull, .vnull, .vnull⟩

/-- A cache file's content: a parquet artifact (typed table) or a CSV
artifact (grid of fields). -/
inductive Artifact where
  | parquetArt (t : Table) : Artifact
  | csvArt (rows : List (List CsvCell)) : Artifact

/-- The file system: what artifact, if any, lives at each path. -/
def FS := String → Option Artifact

/-- Model of `_save_cache`: a no-op when the table is `None` or empty;
otherwise write a parquet artifact when the path ends in `.parquet`
and silently fall back to the CSV writer for every other extension. -/
def saveCache (fs : FS) (df : Option Table) (path : String) : FS :=
  match df with
  | none => fs
  | some t =>
      if t = [] then fs
      else
        let art :=
          if endsWithPath path ".parquet" then Artifact.parquetArt t
          else Artifact.csvArt (t.map encodeRow)
        fun p => if p = path then some art else fs p

/-- Errors the body of `_load_from_cache` can raise:
`unsupportedFormat` is the source's
`ValueError("Unsupported cache file format")`; `badArtifact` is a
reader failing on a file of the other format. -/
inductive LoadErr where
  | unsupportedFormat : LoadErr
  | badArtifact : LoadErr
  deriving DecidableEq

/-- The body of the `try` block in `_load_from_cache`: `ok none` when
the file does not exist (warn, `df` left unset), otherwise dispatch on
the extension, raising `unsupportedFormat` for an unrecognized one. -/
def loadFromCacheBody (fs : FS) (path : String) : Except LoadErr (Option Table) :=
  match fs path with
  | none => .ok none
  | some art =>
      if endsWithPath path ".parquet" then
        match art with
        | .parquetArt t => .ok (some t)
        | _ => .error .badArtifact
      else if endsWithPath path ".csv" then
        match art with
        | .csvArt rows => .ok (some (rows.map decodeRow))
        | _ => .error .badArtifact
      else .error .unsupportedFormat

/-- Model of `_load_from_cache` as its caller sees it: the method's own
`except` clause catches every error from the body, logs it, and leaves
the table unset — the caller never observes an exception. -/
def loadFromCache (fs : FS) (path : String) : Option Table :=
  match loadFromCacheBody fs path with
  | .ok t => t
  | .error _ => none

/-! ### Orchestrator (`__init__`, `_fallback_procedure`,
`_generate_sample_data`) -/

/-- The synthetic raw table of `_generate_sample_data`, before
cleaning (derived columns not yet present: null). -/
def sampleTable : Table :=
  [⟨.vstr "2023-01", .vstr "Ang Mo Kio", .vstr "4 ROOM", .vnum 80,
    .vnum 400000, .vnum 1985, .vnull, .vnull⟩,
   ⟨.vstr "2023-02", .vstr "Bedok", .vstr "5 ROOM", .vnum 85,
    .vnum 420000, .vnum 1990, .vnull, .vnull⟩]

/-- Model of `_generate_sample_data`: build the sample table and clean it. -/
def generateSampleData (currentYear : Int) : Table :=
  cleanData currentYear sampleTable

/-- Model of `_fallback_procedure`: it runs `_load_from_cache` inside a
`try`, with `_generate_sample_data` in the handler — but
`_load_from_cache` catches all its own errors internally and returns
normally, so the handler (and with it the sample strategy) is
unreachable from this path and the fallback reduces to the cache load. -/
def fallbackProcedure (fs : FS) (path : String) : Option Table :=
  loadFromCache fs path

/-- Model of `HDBDataProcessor.__init__`: the resulting `self.df`.  With
`use_api=True` the API chain runs, any error falling back via
`_fallback_procedure`; with `use_api=False` only `_load_from_cache`
runs, which cannot raise, so the `except` clause of `__init__` is
never reached on that path.  The outer `none` marks a construction
that is still inside a non-terminating fetch loop after `fuel`
iterations (`_save_cache` touches only the file system, not `df`). -/
def runInit (useApi : Bool) (pages : Nat → PageResp Row) (fuel : Nat)
    (fs : FS) (cacheFile : String) (currentYear : Int) : Option (Option Table) :=
  if useApi then
    match fetchAll pages fuel with
    | some (.ok recs) => some (some (cleanData currentYear recs))
    | some (.error _) => some (fallbackProcedure fs cacheFile)
    | none => none
  else some (loadFromCache fs cacheFile)

/-! ### Query layer (`get_towns`, `get_flat_types`, `get_town_data`,
`get_full_data`, and `/heatmap` in `src/api/app.py`) -/

/-- The processor state the query methods read. -/
structure Proc where
  df : Option Table

/-- Tag used to order cells of different kinds.  Python's `sorted`
raises on mixed types; the claims only exercise single-kind columns,
where this order restricts to the genuine one. -/
def valueTag : Value → Nat
  | .vnull => 0
  | .vnum _ => 1
  | .vstr _ => 2
  | .vdate _ => 3

/-- Chronological order on dates. -/
def dateLe (a b : Date) : Bool :=
  decide (a.year < b.year)
  || (a.year == b.year
      && (a.month < b.month || (a.month == b.month && a.day ≤ b.day)))

/-- Total order on cells: numeric order on numbers, lexicographic on
strings, chronological on dates. -/
def valueLe (a b : Value) : Bool :=
  match a, b with
  | .vnum p, .vnum q => decide (p ≤ q)
  | .vstr s, .vstr u => decide (s ≤ u)
  | .vdate d, .vdate e => dateLe d e
  | a, b => valueTag a ≤ valueTag b

/-- Model of `get_towns`: sorted distinct `town` values; `[]` when the
table is absent. -/
def getTowns (p : Proc) : List Value :=
  match p.df with
  | none => []
  | some t => sortLe valueLe (t.map fun r => r.town).dedup

/-- Model of `get_flat_types`: sorted distinct `flat_type` values; `[]`
when the table is absent. -/
def getFlatTypes (p : Proc) : List Value :=
  match p.df with
  | none => []
  | some t => sortLe valueLe (t.map fun r => r.flat_type).dedup

/-- One row of the `get_town_data` aggregate. -/
structure SeriesPoint where
  month : Value
  resale_price : Value
  price_per_sqm : Value
  lease_remaining : Value
  deriving DecidableEq, Repr

/-- Arithmetic mean over the non-null entries (pandas `mean`, `skipna`);
null when no entry is numeric. -/
def meanV (l : List Value) : Value :=
  let v := validNums l
  if v.length = 0 then .vnull else .vnum (v.sum / v.length)

/-- Median over the non-null entries as a cell (pandas `median`). -/
def medianV (l : List Value) : Value :=
  match median (validNums l) with
  | some q => .vnum q
  | none => .vnull

/-- Model of `get_town_data`: an empty table when `df` is `None`;
otherwise the rows whose `town` equals the title-cased argument,
grouped by `month` (null keys dropped, keys sorted ascending, as
pandas `groupby` does) with columnwise means. -/
def getTownData (p : Proc) (town : String) : List SeriesPoint :=
  match p.df with
  | none => []
  | some t =>
      let rows := t.filter fun r => r.town == .vstr (titleStr town)
      let months :=
        sortLe valueLe ((rows.map fun r => r.month).dedup.filter fun m => !(m == .vnull))
      months.map fun m =>
        let g := rows.filter fun r => r.month == m
        ⟨m, meanV (g.map fun r => r.resale_price),
         meanV (g.map fun r => r.price_per_sqm),
         meanV (g.map fun r => r.lease_remaining)⟩

/-- Model of `get_full_data`: a copy of the table, or an empty one. -/
def getFullData (p : Proc) : Table :=
  p.df.getD []

/-- One row of the `/heatmap` aggregate. -/
structure HeatmapPoint where
  town : Value
  flat_type : Value
  price_per_sqm : Value
  deriving DecidableEq, Repr

/-- Order on `(town, flat_type)` group keys. -/
def pairLe (a b : Value × Value) : Bool :=
  if a.1 == b.1 then valueLe a.2 b.2 else valueLe a.1 b.1

/-- Model of the `/heatmap` route body in `src/api/app.py`: it reads
`processor.df.groupby(...)` with no `None` guard (the route's
`if not processor` check can never fire, a constructed processor being
truthy), so an absent table raises `AttributeError`; otherwise rows
are grouped by `(town, flat_type)` (rows with a null key dropped, keys
sorted) with the median `price_per_sqm` per group. -/
def heatmapData (p : Proc) : Except String (List HeatmapPoint) :=
  match p.df with
  | none => .error "AttributeError: NoneType has no groupby"
  | some t =>
      let keys :=
        sortLe pairLe ((t.map fun r => (r.town, r.flat_type)).dedup.filter
          fun k => !(k.1 == .vnull) && !(k.2 == .vnull))
      .ok (keys.map fun k =>
        let g := t.filter fun r => r.town == k.1 && r.flat_type == k.2
        ⟨k.1, k.2, medianV (g.map fun r => r.price_per_sqm)⟩)

/-! ### Derived notions and concrete fixtures used by the theorems -/

/-- The per-row action of one whole `_clean_data` pass, given the two
column medians: steps 1-5 composed (step 6, the filter, is
table-level). -/
def cleanRow (currentYear : Int) (mp ma : Option ℚ) (r : Row) : Row :=
  townRow (leaseRow currentYear (priceRow (numRow mp ma (monthRow r))))

/-- Forget `lease_remaining`, the one column whose value depends on the
calendar year of the pipeline run. -/
def eraseLease (r : Row) : Row :=
  { r with lease_remaining := .vnull }

/-- A character list is correctly title-cased assuming the character
before it was alphabetic iff the flag is set: every alphabetic
character at a word start is its own uppercase form, every other
alphabetic character its own lowercase form. -/
def titledB : Bool → List Char → Bool
  | _, [] => true
  | b, c :: cs =>
      (if isAlphaC c then (if b then lowC c == c else upC c == c) else true)
        && titledB (isAlphaC c) cs

/-- A cell that survives a CSV round trip unchanged: numbers and nulls
always do; a string does unless it is empty or re-parses as a number;
a datetime never does (it is read back as its date string). -/
def csvStable : Value → Bool
  | .vnull => true
  | .vnum _ => true
  | .vstr s => !(s == "") && (parseNumStr s).isNone
  | .vdate _ => false

/-- All cells of a row are CSV-stable. -/
def rowCsvStable (r : Row) : Bool :=
  csvStable r.month && csvStable r.town && csvStable r.flat_type
    && csvStable r.floor_area_sqm && csvStable r.resale_price
    && csvStable r.lease_commence_date && csvStable r.price_per_sqm
    && csvStable r.lease_remaining

/-- An empty file system. -/
def fsEmpty : FS := fun _ => none

/-- A file system holding one CSV-format file at a `.json` path. -/
def fsJson : FS := fun p => if p = "data.json" then some (.csvArt []) else none

/-- A raw record as a row: the derived columns are not present yet. -/
def rawRow (month town ft fa rp lcd : Value) : Row :=
  ⟨month, town, ft, fa, rp, lcd, .vnull, .vnull⟩

/-- The raw table of the C5 scenario: one row with an unparseable
`resale_price` and an unnormalized town, one below-threshold row
(present so that its price enters the median pool, showing the median
is taken before the outlier filter), and two ordinary rows. -/
def fixtureC5 : Table :=
  [rawRow .vnull (.vstr " bedok ") (.vstr "4 ROOM") (.vnum 80) (.vstr "bad") .vnull,
   rawRow .vnull (.vstr "A") (.vstr "4 ROOM") (.vnum 50) (.vnum 5000) .vnull,
   rawRow .vnull (.vstr "B") (.vstr "4 ROOM") (.vnum 100) (.vnum 400000) .vnull,
   rawRow .vnull (.vstr "C") (.vstr "4 ROOM") (.vnum 100) (.vnum 500000) .vnull]

/-- A one-row raw table whose row survives cleaning. -/
def fixtureC4 : Table :=
  [rawRow .vnull (.vstr "A") (.vstr "4 ROOM") (.vnum 50) (.vnum 400000) .vnull]

/-- The row `fixtureC4` cleans to. -/
def rowC4 : Row :=
  ⟨.vnull, .vstr "A", .vstr "4 ROOM", .vnum 50, .vnum 400000, .vnull,
   .vnum (400000 / 50), .vnull⟩

/-- A raw table whose every `resale_price` fails numeric coercion. -/
def fixtureC10 : Table :=
  [rawRow .vnull (.vstr "A") (.vstr "4 ROOM") (.vnum 50) (.vstr "bad") .vnull,
   rawRow .vnull (.vstr "B") (.vstr "4 ROOM") (.vnum 60) .vnull .vnull]

/-- A remote source giving a valid first page (a reported total of 50
with 30 records, so the loop must continue) and failing from the
second request on. -/
def pagesC6 : Nat → PageResp Nat :=
  fun o => if o = 0 then .ok 50 (List.range 30) else .err

/-- A remote source that always fails. -/
def pagesErr : Nat → PageResp Nat := fun _ => .err

/-- A remote source whose every response is a valid envelope with a
positive total and zero records. -/
def pagesEmptyRecs : Nat → PageResp Nat := fun _ => .ok 1 []

/-- A remote source delivering one record per page, total 3. -/
def pagesProgress : Nat → PageResp Nat := fun o => .ok 3 [o]

/-- A remote source of rows that always fails (used with the
orchestrator). -/
def pagesRowErr : Nat → PageResp Row := fun _ => .err

/-- A one-row cleaned-table fixture containing datetime cells. -/
def fixtureDate : Table :=
  [⟨.vdate ⟨2023, 1, 1⟩, .vstr "Bedok", .vstr "4 ROOM", .vnum 80,
    .vnum 400000, .vdate ⟨1985, 1, 1⟩, .vnum 5000, .vnum 43⟩]

/-- The same fixture after a CSV round trip: the datetime cells come
back as their date strings. -/
def fixtureDateDecoded : Table :=
  [⟨.vstr "2023-01-01", .vstr "Bedok", .vstr "4 ROOM", .vnum 80,
    .vnum 400000, .vstr "1985-01-01", .vnum 5000, .vnum 43⟩]

/-- A one-row table all of whose cells are CSV-stable. -/
def fixtureStable : Table :=
  [⟨.vnull, .vstr "Bedok", .vstr "4 ROOM", .vnum 80, .vnum 400000,
    .vnull, .vnum 5000, .vnum 43⟩]

/-! ## Theorems -/

/-! ### C1 — `use_network=false` with a missing cache file -/

/-- C1 (counterexample): constructing with `use_api=False` against an
empty file system does not produce the cleaned sample table — the
claimed fall-through to the sample strategy does not happen. -/
theorem claim1_counterexample :
    runInit false pagesRowErr 0 fsEmpty "hdb_data.parquet" 2026 ≠
      some (some (generateSampleData 2026)) := by
  decide

/-- C1 (amended): with `use_network=false` and a `cache_path` naming no
existing file, construction completes with the table left absent
(`df = None`).  The orchestrator never falls through to the sample
strategy on this path: `_load_from_cache` treats the missing file as a
non-exceptional outcome, so `__init__`'s `except` clause — the only
route to `_fallback_procedure` — is not taken. -/
theorem claim1_amended (fs : FS) (pages : Nat → PageResp Row) (fuel : Nat)
    (cacheFile : String) (year : Int) (h : fs cacheFile = none) :
    runInit false pages fuel fs cacheFile year = some none := by
  simp [runInit, loadFromCache, loadFromCacheBody, h]

/-- C1 witness: the amended claim at the concrete scenario. -/
theorem claim1_witness :
    fsEmpty "hdb_data.parquet" = none ∧
    runInit false pagesRowErr 0 fsEmpty "hdb_data.parquet" 2026 = some none :=
  ⟨rfl, claim1_amended fsEmpty pagesRowErr 0 "hdb_data.parquet" 2026 rfl⟩

/-! ### C2 — query layer on an absent table -/

/-- C2 (counterexample): the heatmap operation raises (models the
`AttributeError` from `processor.df.groupby` with `df = None` in
`src/api/app.py`) instead of returning an empty result. -/
theorem claim2_counterexample :
    heatmapData ⟨none⟩ = .error "AttributeError: NoneType has no groupby" :=
  rfl

/-- C2 (amended): when the cleaned table is absent, `get_towns`,
`get_flat_types`, `get_town_data` and `get_full_data` return empty
results without raising, but the heatmap operation raises, because the
`/heatmap` route reads `processor.df.groupby` with no `None` guard. -/
theorem claim2_amended (p : Proc) (town : String) (h : p.df = none) :
    getTowns p = [] ∧ getFlatTypes p = [] ∧ getTownData p town = []
      ∧ getFullData p = [] ∧ ∃ e, heatmapData p = .error e := by
  obtain ⟨df⟩ := p
  cases h
  exact ⟨rfl, rfl, rfl, rfl, _, rfl⟩

/-- C2 witness: the amended claim at the absent-table state. -/
theorem claim2_witness :
    getTowns ⟨none⟩ = [] ∧ getFlatTypes ⟨none⟩ = []
      ∧ getTownData ⟨none⟩ "Bedok" = [] ∧ getFullData ⟨none⟩ = []
      ∧ ∃ e, heatmapData ⟨none⟩ = .error e :=
  claim2_amended ⟨none⟩ "Bedok" rfl

/-! ### C3 — unsupported cache format on load -/

/-- C3 (counterexample): loading a `.json` cache file raises the
unsupported-format error inside `_load_from_cache`, but the method's
own handler swallows it — the caller of the load operation observes no
error, only an unset table. -/
theorem claim3_counterexample :
    loadFromCacheBody fsJson "data.json" = .error .unsupportedFormat ∧
    loadFromCache fsJson "data.json" = none :=
  ⟨rfl, rfl⟩

/-- C3 (amended): for every cache path with an extension that is
neither `.parquet` nor `.csv`, when a file exists at the path the body
of the load raises `UnsupportedFormatError`, but `_load_from_cache`'s
own `except` clause catches it, so the error never reaches the caller:
the load returns normally with the table unset.  (When no file exists,
nothing is raised at all.) -/
theorem claim3_amended (fs : FS) (path : String) (art : Artifact)
    (hex : fs path = some art)
    (hp : endsWithPath path ".parquet" = false)
    (hc : endsWithPath path ".csv" = false) :
    loadFromCacheBody fs path = .error .unsupportedFormat ∧
    loadFromCache fs path = none := by
  refine ⟨?_, ?_⟩ <;> simp [loadFromCacheBody, loadFromCache, hex, hp, hc]

/-- C3 witness: the amended claim at a concrete `.json` path. -/
theorem claim3_witness :
    loadFromCacheBody fsJson "data.json" = .error .unsupportedFormat ∧
    loadFromCache fsJson "data.json" = none :=
  claim3_amended fsJson "data.json" (.csvArt []) rfl rfl rfl

/-! ### Structure lemmas about the cleaning pipeline -/

/-- Steps 1-5 of the pipeline act as one row map, with the medians
taken on the month-parsed table. -/
theorem cleanSteps_eq_map (y : Int) (t : Table) :
    townStep (leaseStep y (priceStep (numericStep (monthStep t)))) =
      t.map (cleanRow y (resaleMedian (monthStep t)) (areaMedian (monthStep t))) := by
  simp only [townStep, leaseStep, priceStep, numericStep, monthStep, List.map_map]
  rfl

/-- On a non-empty table, `_clean_data` is the row map followed by the
outlier filter. -/
theorem cleanData_eq_filter_map (y : Int) (t : Table) (h : t ≠ []) :
    cleanData y t =
      (t.map (cleanRow y (resaleMedian (monthStep t)) (areaMedian (monthStep t)))).filter
        passesOutlier := by
  rw [cleanData, if_neg h, ← cleanSteps_eq_map]
  rfl

/-- Month parsing leaves the `resale_price` column unchanged. -/
theorem resaleMedian_monthStep (t : Table) :
    resaleMedian (monthStep t) = resaleMedian t := by
  simp only [resaleMedian, monthStep, List.map_map]
  rfl

/-- Month parsing leaves the `floor_area_sqm` column unchanged. -/
theorem areaMedian_monthStep (t : Table) :
    areaMedian (monthStep t) = areaMedian t := by
  simp only [areaMedian, monthStep, List.map_map]
  rfl

/-- The `resale_price` cell a full row pass produces. -/
theorem cleanRow_resale (y : Int) (mp ma : Option ℚ) (r : Row) :
    (cleanRow y mp ma r).resale_price = fillWith mp (toNumeric r.resale_price) :=
  rfl

/-- The `floor_area_sqm` cell a full row pass produces. -/
theorem cleanRow_area (y : Int) (mp ma : Option ℚ) (r : Row) :
    (cleanRow y mp ma r).floor_area_sqm = fillWith ma (toNumeric r.floor_area_sqm) :=
  rfl

/-! ### C10 — wholly non-numeric price or area column -/

/-- C10: when every `resale_price` (resp. every `floor_area_sqm`) of a
raw table fails numeric coercion, the column median is undefined, so
the null-fill leaves the column null and the outlier filter removes
every row: cleaning yields an empty table, without an error. -/
theorem claim10_empty_of_all_invalid (year : Int) (t : Table) :
    ((∀ r ∈ t, toNumeric r.resale_price = .vnull) →
        resaleMedian t = none ∧ cleanData year t = [])
    ∧ ((∀ r ∈ t, toNumeric r.floor_area_sqm = .vnull) →
        areaMedian t = none ∧ cleanData year t = []) := by
  constructor
  · intro h
    have hmed : resaleMedian t = none := by
      have : validNums (t.map fun r => toNumeric r.resale_price) = [] := by
        rw [validNums, List.filterMap_eq_nil_iff]
        intro v hv
        obtain ⟨r, hr, rfl⟩ := List.mem_map.mp hv
        rw [h r hr]
      rw [resaleMedian, this]
      rfl
    refine ⟨hmed, ?_⟩
    rcases eq_or_ne t [] with rfl | hne
    · rfl
    · rw [cleanData_eq_filter_map year t hne, List.filter_eq_nil_iff]
      intro a ha
      obtain ⟨r, hr, rfl⟩ := List.mem_map.mp ha
      rw [passesOutlier, cleanRow_resale, h r hr, resaleMedian_monthStep, hmed]
      simp [fillWith]
  · intro h
    have hmed : areaMedian t = none := by
      have : validNums (t.map fun r => toNumeric r.floor_area_sqm) = [] := by
        rw [validNums, List.filterMap_eq_nil_iff]
        intro v hv
        obtain ⟨r, hr, rfl⟩ := List.mem_map.mp hv
        rw [h r hr]
      rw [areaMedian, this]
      rfl
    refine ⟨hmed, ?_⟩
    rcases eq_or_ne t [] with rfl | hne
    · rfl
    · rw [cleanData_eq_filter_map year t hne, List.filter_eq_nil_iff]
      intro a ha
      obtain ⟨r, hr, rfl⟩ := List.mem_map.mp ha
      rw [passesOutlier, cleanRow_area, h r hr, areaMedian_monthStep, hmed]
      simp [fillWith]

/-- C10 witness: the theorem at a table whose prices are `"bad"` and
null. -/
theorem claim10_witness :
    resaleMedian fixtureC10 = none ∧ cleanData 2026 fixtureC10 = [] :=
  (claim10_empty_of_all_invalid 2026 fixtureC10).1 (by decide)

/-! ### C6 — partial-failure tolerance of the fetcher -/

/-- C6: an error before any page has succeeded propagates to the
caller; an error after at least one page has been retrieved stops the
loop and returns the records accumulated so far; in particular, a
valid first page followed by an error on the second request yields
exactly the first page's records, not an error.  ("At least one page
retrieved" is what the source's `offset > 0` check — its
partial-success test — tracks: the offset equals the accumulated
record count.) -/
theorem claim6_partial_records :
    (∀ (α : Type) (pages : Nat → PageResp α) (fuel : Nat),
        pages 0 = .err → fetchAll pages (fuel + 1) = some (.error .fetchFailed))
    ∧ (∀ (α : Type) (pages : Nat → PageResp α) (fuel offset : Nat)
        (total : Option Nat) (acc : List α),
        0 < offset → pages offset = .err →
        fetchLoop pages (fuel + 1) offset total acc = some (.ok acc))
    ∧ fetchAll pagesC6 10 = some (.ok (List.range 30)) := by
  refine ⟨?_, ?_, ?_⟩
  · intro α pages fuel h
    simp [fetchAll, fetchLoop, h]
  · intro α pages fuel offset total acc ho h
    simp [fetchLoop, h, Nat.pos_iff_ne_zero.mp ho, ho]
  · rfl

/-- C6 witness: both hypothesised parts at concrete inputs. -/
theorem claim6_witness :
    fetchAll pagesErr 1 = some (.error .fetchFailed) ∧
    fetchLoop pagesErr 1 5 none [7] = some (.ok [7]) :=
  ⟨claim6_partial_records.1 Nat pagesErr 0 rfl,
   claim6_partial_records.2.1 Nat pagesErr 0 5 none [7] (by decide) rfl⟩

/-! ### C7 — termination of the pagination loop -/

/-- C7 (counterexample): a remote source whose every response is a
valid envelope with a positive total but zero records defeats the
termination condition — the offset never advances, so the `while True`
loop never finishes, however long it runs. -/
theorem claim7_counterexample : fetchDiverges pagesEmptyRecs := by
  have key : ∀ m, fetchLoop pagesEmptyRecs m 0 (some 1) [] = none := by
    intro m
    induction m with
    | zero => rfl
    | succ k ih => simpa [fetchLoop, pagesEmptyRecs] using ih
  intro fuel
  cases fuel with
  | zero => rfl
  | succ n => simpa [fetchAll, fetchLoop, pagesEmptyRecs] using key n

/-- Bounded-offset termination: once a total is fixed, the loop
finishes within `d + 1` further iterations whenever the remaining gap
`total - offset` is at most `d` and every successful page is
non-empty. -/
theorem fetchLoop_terminates (α : Type) (pages : Nat → PageResp α)
    (hprog : ∀ o tot recs, pages o = .ok tot recs → recs ≠ []) :
    ∀ (d total offset : Nat) (acc : List α), total - offset ≤ d →
      (fetchLoop pages (d + 1) offset (some total) acc).isSome = true := by
  intro d
  induction d with
  | zero =>
    intro total offset acc h
    cases hp : pages offset with
    | err => simp only [fetchLoop, hp]; split <;> simp
    | ok tot recs =>
      simp only [fetchLoop, hp, Option.getD_some]
      rw [if_pos (by omega)]
      simp
  | succ k ih =>
    intro total offset acc h
    cases hp : pages offset with
    | err => simp only [fetchLoop, hp]; split <;> simp
    | ok tot recs =>
      by_cases hle : total ≤ offset + recs.length
      · simp only [fetchLoop, hp, Option.getD_some]
        rw [if_pos hle]
        simp
      · have hlen : 0 < recs.length :=
          List.length_pos.mpr (hprog _ _ _ hp)
        simp only [fetchLoop, hp, Option.getD_some]
        rw [if_neg hle]
        exact ih total (offset + recs.length) (acc ++ recs) (by omega)

/-- C7 (amended): the pagination loop stops once the accumulated
record count reaches the total reported by the first successful page,
or on an error — and hence terminates — provided every successful page
carries at least one record.  (Without that proviso it can spin
forever, as the counterexample shows: the source checks only
`offset >= total_records`, and an empty page leaves the offset
unchanged.) -/
theorem claim7_amended (α : Type) (pages : Nat → PageResp α)
    (hprog : ∀ o tot recs, pages o = .ok tot recs → recs ≠ []) :
    ∃ fuel, (fetchAll pages fuel).isSome = true := by
  cases hp : pages 0 with
  | err => exact ⟨1, by simp [fetchAll, fetchLoop, hp]⟩
  | ok tot recs =>
    by_cases hle : tot ≤ recs.length
    · refine ⟨1, ?_⟩
      simp only [fetchAll, fetchLoop, hp, Option.getD_none, Nat.zero_add]
      rw [if_pos hle]
      simp
    · refine ⟨tot + 2, ?_⟩
      have h := fetchLoop_terminates α pages hprog tot tot recs.length recs (by omega)
      simp only [fetchAll, fetchLoop, hp, Option.getD_none, Nat.zero_add]
      rw [if_neg hle]
      simpa using h

/-- C7 witness: the amended claim at a source delivering one record
per page. -/
theorem claim7_witness : ∃ fuel, (fetchAll pagesProgress fuel).isSome = true :=
  claim7_amended Nat pagesProgress (by
    intro o tot recs h
    rw [pagesProgress] at h
    cases h
    simp)

/-! ### C8 — save/load round trip -/

/-- A CSV-stable cell survives the write/read cycle unchanged. -/
theorem decodeCell_encodeCell (v : Value) (h : csvStable v = true) :
    decodeCell (encodeCell v) = v := by
  cases v with
  | vnull => rfl
  | vnum q => rfl
  | vstr s =>
      simp only [csvStable, Bool.and_eq_true, Bool.not_eq_true', beq_eq_false_iff_ne,
        Option.isNone_iff_eq_none] at h
      obtain ⟨h1, h2⟩ := h
      simp only [encodeCell, if_neg h1, h2]
      rfl
  | vdate d => simp [csvStable] at h

/-- A row of CSV-stable cells survives the write/read cycle. -/
theorem decodeRow_encodeRow (r : Row) (h : rowCsvStable r = true) :
    decodeRow (encodeRow r) = r := by
  simp only [rowCsvStable, Bool.and_eq_true] at h
  obtain ⟨⟨⟨⟨⟨⟨⟨h1, h2⟩, h3⟩, h4⟩, h5⟩, h6⟩, h7⟩, h8⟩ := h
  simp only [encodeRow, decodeRow,
    decodeCell_encodeCell _ h1, decodeCell_encodeCell _ h2,
    decodeCell_encodeCell _ h3, decodeCell_encodeCell _ h4,
    decodeCell_encodeCell _ h5, decodeCell_encodeCell _ h6,
    decodeCell_encodeCell _ h7, decodeCell_encodeCell _ h8]

/-- C8 (counterexample): the round trip through the delimited-text
format does not reproduce the table: the datetime cells of the cleaned
schema come back as their date strings. -/
theorem claim8_counterexample :
    loadFromCache (saveCache fsEmpty (some fixtureDate) "hdb.csv") "hdb.csv" =
      some fixtureDateDecoded ∧ fixtureDateDecoded ≠ fixtureDate := by
  exact ⟨rfl, by decide⟩

/-- C8 (amended): for every non-empty table, `save` followed by `load`
on the same path reproduces the table exactly when the path selects
the columnar-binary format; for the delimited-text format it does so
when every cell is CSV-stable (numbers, nulls and strings that are
non-empty and not numeric-looking) — date-typed cells are read back as
strings, as the counterexample shows. -/
theorem claim8_amended (fs : FS) (t : Table) (p : String) (hne : t ≠ []) :
    (endsWithPath p ".parquet" = true →
      loadFromCache (saveCache fs (some t) p) p = some t)
    ∧ (endsWithPath p ".parquet" = false → endsWithPath p ".csv" = true →
      (∀ r ∈ t, rowCsvStable r = true) →
      loadFromCache (saveCache fs (some t) p) p = some t) := by
  constructor
  · intro hp
    simp only [saveCache, if_neg hne, if_pos hp]
    simp [loadFromCache, loadFromCacheBody, hp]
  · intro hp hc hstable
    simp only [saveCache, if_neg hne, hp, Bool.false_eq_true, if_false]
    simp only [loadFromCache, loadFromCacheBody, if_pos rfl, hp, hc,
      Bool.false_eq_true, if_false, if_true]
    have : (t.map encodeRow).map decodeRow = t := by
      rw [List.map_map]
      have := List.map_congr_left (l := t) (f := decodeRow ∘ encodeRow) (g := id)
        (fun r hr => decodeRow_encodeRow r (hstable r hr))
      rw [this, List.map_id]
    rw [this]

/-- C8 witness: the amended claim at a stable one-row table, for both
formats. -/
theorem claim8_witness :
    loadFromCache (saveCache fsEmpty (some fixtureStable) "hdb.parquet") "hdb.parquet" =
      some fixtureStable ∧
    loadFromCache (saveCache fsEmpty (some fixtureStable) "hdb.csv") "hdb.csv" =
      some fixtureStable :=
  ⟨(claim8_amended fsEmpty fixtureStable "hdb.parquet" (by decide)).1 (by decide),
   (claim8_amended fsEmpty fixtureStable "hdb.csv" (by decide)).2
     (by decide) (by decide) (by decide)⟩

/-! ### C4 — the outlier invariant of cleaned tables -/

/-- C4: every row of a cleaned table carries a numeric `resale_price`
above 10000 and a numeric `floor_area_sqm` above 20.  The query
methods never mutate the table (in this embedding they are pure
functions of the processor state), so the invariant persists for the
processor's lifetime. -/
theorem claim4_outlier_invariant (year : Int) (t : Table) (r : Row)
    (hr : r ∈ cleanData year t) :
    (∃ q, r.resale_price = .vnum q ∧ 10000 < q)
    ∧ (∃ a, r.floor_area_sqm = .vnum a ∧ 20 < a) := by
  rcases eq_or_ne t [] with rfl | hne
  · simp [cleanData] at hr
  · rw [cleanData_eq_filter_map year t hne] at hr
    have hp := (List.mem_filter.mp hr).2
    rw [passesOutlier, Bool.and_eq_true] at hp
    obtain ⟨h1, h2⟩ := hp
    constructor
    · cases hres : r.resale_price with
      | vnum q =>
          rw [hres] at h1
          exact ⟨q, rfl, by simpa using h1⟩
      | vnull => rw [hres] at h1; simp at h1
      | vstr s => rw [hres] at h1; simp at h1
      | vdate d => rw [hres] at h1; simp at h1
    · cases hfa : r.floor_area_sqm with
      | vnum a =>
          rw [hfa] at h2
          exact ⟨a, rfl, by simpa using h2⟩
      | vnull => rw [hfa] at h2; simp at h2
      | vstr s => rw [hfa] at h2; simp at h2
      | vdate d => rw [hfa] at h2; simp at h2

/-- C4 witness: the invariant at the row the one-row fixture cleans
to. -/
theorem claim4_witness :
    (∃ q, rowC4.resale_price = .vnum q ∧ 10000 < q)
    ∧ (∃ a, rowC4.floor_area_sqm = .vnum a ∧ 20 < a) :=
  claim4_outlier_invariant 2026 fixtureC4 rowC4 (List.Mem.head _)

/-! ### C5 — median null-fill, computed before the outlier filter -/

/-- C5: a `resale_price` entry that fails numeric coercion is replaced
by the median of the still-numeric entries of the whole (pre-filter)
column — `numericStep` runs on the full table, before `filterStep`, in
`cleanData`.  In particular, cleaning the scenario table (a row with
`resale_price="bad"`, `floor_area_sqm=80`, `town=" bedok "`, plus a
below-threshold row and two ordinary rows) gives that row the median
400000 of the three valid prices (the later-filtered 5000 included)
and the town `"Bedok"`. -/
theorem claim5_median_fill :
    (∀ (t : Table) (i : Nat) (r : Row) (m : ℚ),
        t[i]? = some r → toNumeric r.resale_price = .vnull →
        resaleMedian t = some m →
        ((numericStep t)[i]?).map Row.resale_price = some (.vnum m))
    ∧ cleanData 2026 fixtureC5 =
        [⟨.vnull, .vstr "Bedok", .vstr "4 ROOM", .vnum 80, .vnum 400000, .vnull,
          .vnum (400000 / 80), .vnull⟩,
         ⟨.vnull, .vstr "B", .vstr "4 ROOM", .vnum 100, .vnum 400000, .vnull,
          .vnum (400000 / 100), .vnull⟩,
         ⟨.vnull, .vstr "C", .vstr "4 ROOM", .vnum 100, .vnum 500000, .vnull,
          .vnum (500000 / 100), .vnull⟩] := by
  constructor
  · intro t i r m hi hnv hmed
    rw [numericStep, List.getElem?_map, hi]
    simp [numRow, hnv, hmed, fillWith]
  · rfl

/-- C5 witness: the general fill law at the scenario table's first
row. -/
theorem claim5_witness :
    ((numericStep fixtureC5)[0]?).map Row.resale_price = some (.vnum 400000) :=
  claim5_median_fill.1 fixtureC5 0
    (rawRow .vnull (.vstr " bedok ") (.vstr "4 ROOM") (.vnum 80) (.vstr "bad") .vnull)
    400000 rfl rfl rfl

/-! ### Title-case and strip are fixpoints on their own output -/

/-- A character within a valid small codepoint range keeps its value
through `Char.ofNat`. -/
theorem toNat_ofNat_small {n : Nat} (h : n < 55296) : (Char.ofNat n).toNat = n := by
  have hv : n.isValidChar := Or.inl h
  rw [Char.ofNat, dif_pos hv]
  rfl

/-- Whitespace is not alphabetic. -/
theorem ws_not_alpha (c : Char) (h : isWS c = true) : isAlphaC c = false := by
  simp only [isWS, Bool.or_eq_true, beq_iff_eq, Bool.and_eq_true, decide_eq_true_eq] at h
  simp only [isAlphaC, Bool.or_eq_false_iff, Bool.and_eq_false_iff,
    decide_eq_false_iff_not]
  omega

/-- Uppercasing a lowercase letter lands in the uppercase range. -/
theorem upC_toNat (c : Char) (h : (97 ≤ c.toNat && c.toNat ≤ 122) = true) :
    (upC c).toNat = c.toNat - 32 := by
  simp only [Bool.and_eq_true, decide_eq_true_eq] at h
  rw [upC, if_pos (by simp [h])]
  exact toNat_ofNat_small (by omega)

/-- Lowercasing an uppercase letter lands in the lowercase range. -/
theorem lowC_toNat (c : Char) (h : (65 ≤ c.toNat && c.toNat ≤ 90) = true) :
    (lowC c).toNat = c.toNat + 32 := by
  simp only [Bool.and_eq_true, decide_eq_true_eq] at h
  rw [lowC, if_pos (by simp [h])]
  exact toNat_ofNat_small (by omega)

/-- A character outside the lowercase range is fixed by `upC`. -/
theorem upC_eq_self (c : Char) (h : (97 ≤ c.toNat && c.toNat ≤ 122) = false) :
    upC c = c := by
  rw [upC, if_neg (by simp [h])]

/-- A character outside the uppercase range is fixed by `lowC`. -/
theorem lowC_eq_self (c : Char) (h : (65 ≤ c.toNat && c.toNat ≤ 90) = false) :
    lowC c = c := by
  rw [lowC, if_neg (by simp [h])]

/-- Uppercasing preserves being alphabetic. -/
theorem isAlphaC_upC (c : Char) : isAlphaC (upC c) = isAlphaC c := by
  by_cases h : (97 ≤ c.toNat && c.toNat ≤ 122) = true
  · have ht := upC_toNat c h
    simp only [Bool.and_eq_true, decide_eq_true_eq] at h
    rw [Bool.eq_iff_iff]
    simp only [isAlphaC, ht, Bool.or_eq_true, Bool.and_eq_true, decide_eq_true_eq]
    omega
  · rw [upC_eq_self c (Bool.eq_false_iff.mpr h)]

/-- Lowercasing preserves being alphabetic. -/
theorem isAlphaC_lowC (c : Char) : isAlphaC (lowC c) = isAlphaC c := by
  by_cases h : (65 ≤ c.toNat && c.toNat ≤ 90) = true
  · have ht := lowC_toNat c h
    simp only [Bool.and_eq_true, decide_eq_true_eq] at h
    rw [Bool.eq_iff_iff]
    simp only [isAlphaC, ht, Bool.or_eq_true, Bool.and_eq_true, decide_eq_true_eq]
    omega
  · rw [lowC_eq_self c (Bool.eq_false_iff.mpr h)]

/-- Uppercasing is idempotent. -/
theorem upC_idem (c : Char) : upC (upC c) = upC c := by
  by_cases h : (97 ≤ c.toNat && c.toNat ≤ 122) = true
  · refine upC_eq_self (upC c) ?_
    rw [upC_toNat c h]
    simp only [Bool.and_eq_true, decide_eq_true_eq] at h
    simp only [Bool.and_eq_false_iff, decide_eq_false_iff_not]
    omega
  · simp only [upC_eq_self c (Bool.eq_false_iff.mpr h)]

/-- Lowercasing is idempotent. -/
theorem lowC_idem (c : Char) : lowC (lowC c) = lowC c := by
  by_cases h : (65 ≤ c.toNat && c.toNat ≤ 90) = true
  · refine lowC_eq_self (lowC c) ?_
    rw [lowC_toNat c h]
    simp only [Bool.and_eq_true, decide_eq_true_eq] at h
    simp only [Bool.and_eq_false_iff, decide_eq_false_iff_not]
    omega
  · simp only [lowC_eq_self c (Bool.eq_false_iff.mpr h)]

/-- The output of `titleAux` is correctly title-cased. -/
theorem titledB_titleAux (l : List Char) : ∀ b : Bool, titledB b (titleAux b l) = true := by
  induction l with
  | nil => intro b; rfl
  | cons c cs ih =>
      intro b
      by_cases ha : isAlphaC c = true <;> cases b <;>
        simp [titleAux, titledB, ha, isAlphaC_lowC, isAlphaC_upC, lowC_idem, upC_idem, ih]

/-- a correctly title-cased list is a fixpoint of `titleAux`. -/
theorem titleAux_of_titledB (l : List Char) :
    ∀ b : Bool, titledB b l = true → titleAux b l = l := by
  induction l with
  | nil => intro b _; rfl
  | cons c cs ih =>
      intro b h
      simp only [titledB, Bool.and_eq_true] at h
      obtain ⟨h1, h2⟩ := h
      by_cases ha : isAlphaC c = true <;> cases b <;>
        simp_all [titleAux, titledB, ih (isAlphaC c) h2, beq_iff_eq]

/-- Title-casedness restricts to an initial segment. -/
theorem titledB_append_left (l₁ : List Char) :
    ∀ (b : Bool) (l₂ : List Char), titledB b (l₁ ++ l₂) = true → titledB b l₁ = true := by
  induction l₁ with
  | nil => intro b l₂ _; rfl
  | cons c cs ih =>
      intro b l₂ h
      simp only [List.cons_append, titledB, Bool.and_eq_true] at h ⊢
      exact ⟨h.1, ih _ _ h.2⟩

/-- Dropping leading whitespace preserves title-casedness at a word
start. -/
theorem titledB_dropWhile (l : List Char) (h : titledB false l = true) :
    titledB false (l.dropWhile isWS) = true := by
  induction l with
  | nil => exact h
  | cons c cs ih =>
      rw [List.dropWhile_cons]
      simp only [titledB, Bool.and_eq_true] at h
      by_cases hw : isWS c = true
      · rw [if_pos hw]
        exact ih (by rw [← ws_not_alpha c hw]; exact h.2)
      · rw [if_neg hw]
        simp only [titledB, Bool.and_eq_true]
        exact h

/-- Stripping trailing whitespace takes an initial segment. -/
theorem stripTrail_append (l : List Char) :
    l = stripTrail l ++ (l.reverse.takeWhile isWS).reverse := by
  rw [stripTrail, ← List.reverse_append, List.takeWhile_append_dropWhile, List.reverse_reverse]

/-- Dropping trailing whitespace preserves title-casedness. -/
theorem titledB_stripTrail (l : List Char) (b : Bool) (h : titledB b l = true) :
    titledB b (stripTrail l) = true := by
  rw [stripTrail_append l] at h
  exact titledB_append_left _ _ _ h

/-- Dropping a matched segment twice is dropping it once. -/
theorem dropWhile_dropWhile (p : Char → Bool) (l : List Char) :
    (l.dropWhile p).dropWhile p = l.dropWhile p := by
  induction l with
  | nil => rfl
  | cons c cs ih =>
      rw [List.dropWhile_cons]
      by_cases hp : p c = true
      · rw [if_pos hp]; exact ih
      · rw [if_neg hp, List.dropWhile_cons, if_neg hp]

/-- Stripping trailing whitespace is idempotent. -/
theorem stripTrail_idem (l : List Char) : stripTrail (stripTrail l) = stripTrail l := by
  show ((stripTrail l).reverse.dropWhile isWS).reverse = stripTrail l
  rw [stripTrail, List.reverse_reverse, dropWhile_dropWhile]

/-- A list with no leading whitespace still has none after its tail
end is stripped. -/
theorem dropWhile_stripTrail (l : List Char) (h : l.dropWhile isWS = l) :
    (stripTrail l).dropWhile isWS = stripTrail l := by
  cases hl : stripTrail l with
  | nil => rfl
  | cons c cs =>
      have hsplit := stripTrail_append l
      rw [hl] at hsplit
      rw [hsplit, List.cons_append, List.dropWhile_cons] at h
      by_cases hw : isWS c = true
      · exfalso
        rw [if_pos hw] at h
        have hlen := congrArg List.length h
        have hle := (List.dropWhile_sublist (l := cs ++ (l.reverse.takeWhile isWS).reverse)
          isWS).length_le
        simp only [List.length_cons] at hlen
        omega
      · rw [List.dropWhile_cons, if_neg hw]

/-- Stripping is idempotent. -/
theorem stripChars_idem (l : List Char) : stripChars (stripChars l) = stripChars l := by
  show stripTrail ((stripChars l).dropWhile isWS) = stripChars l
  rw [stripChars, dropWhile_stripTrail _ (dropWhile_dropWhile isWS l), stripTrail_idem]

/-- The normalized town text is a fixpoint of title-then-strip. -/
theorem strip_title_fix (l : List Char) :
    stripChars (titleAux false (stripChars (titleAux false l))) =
      stripChars (titleAux false l) := by
  have h3 : titledB false (stripChars (titleAux false l)) = true := by
    rw [stripChars]
    exact titledB_stripTrail _ _ (titledB_dropWhile _ (titledB_titleAux l false))
  rw [titleAux_of_titledB _ false h3, stripChars_idem]

/-- String version of the fixpoint. -/
theorem stripStr_titleStr_fix (s : String) :
    stripStr (titleStr (stripStr (titleStr s))) = stripStr (titleStr s) :=
  congrArg String.mk (strip_title_fix s.data)

/-! ### C9 — idempotence of the cleaning pipeline -/

/-- Parsing a date cell is idempotent: the parse's image consists of
dates and nulls, both of which re-parse to themselves. -/
theorem parseDate_idem (v : Value) : parseDate (parseDate v) = parseDate v := by
  cases v with
  | vnull => rfl
  | vdate d => rfl
  | vstr s =>
      simp only [parseDate]
      cases h : parseDateStr s <;> simp [h, parseDate]
  | vnum q =>
      simp only [parseDate]
      by_cases hc :
        (q.den == 1 && decide (0 ≤ q.num) && decide (q.num < 31536 * 10 ^ 12)) = true
      · rw [if_pos hc]
      · rw [if_neg hc]

/-- Normalizing a town cell is idempotent. -/
theorem titleV_idem (v : Value) : titleV (titleV v) = titleV v := by
  cases v with
  | vnull => rfl
  | vnum q => rfl
  | vdate d => rfl
  | vstr s =>
      simp only [titleV]
      rw [stripStr_titleStr_fix]

/-- The `month` cell a full row pass produces. -/
theorem cleanRow_month (y : Int) (mp ma : Option ℚ) (r : Row) :
    (cleanRow y mp ma r).month = parseDate r.month :=
  rfl

/-- The `town` cell a full row pass produces. -/
theorem cleanRow_town (y : Int) (mp ma : Option ℚ) (r : Row) :
    (cleanRow y mp ma r).town = titleV r.town :=
  rfl

/-- The `lease_commence_date` cell a full row pass produces. -/
theorem cleanRow_lcd (y : Int) (mp ma : Option ℚ) (r : Row) :
    (cleanRow y mp ma r).lease_commence_date = parseDate r.lease_commence_date :=
  rfl

/-- The `lease_remaining` cell a full row pass produces. -/
theorem cleanRow_lease (y : Int) (mp ma : Option ℚ) (r : Row) :
    (cleanRow y mp ma r).lease_remaining = leaseVal y (parseDate r.lease_commence_date) :=
  rfl

/-- Rows that pass the outlier filter have numeric price and area. -/
theorem passesOutlier_fields (r : Row) (h : passesOutlier r = true) :
    (∃ q, r.resale_price = .vnum q) ∧ (∃ a, r.floor_area_sqm = .vnum a) := by
  rw [passesOutlier, Bool.and_eq_true] at h
  obtain ⟨h1, h2⟩ := h
  constructor
  · cases hres : r.resale_price with
    | vnum q => exact ⟨q, rfl⟩
    | vnull => rw [hres] at h1; simp at h1
    | vstr s => rw [hres] at h1; simp at h1
    | vdate d => rw [hres] at h1; simp at h1
  · cases hfa : r.floor_area_sqm with
    | vnum a => exact ⟨a, rfl⟩
    | vnull => rw [hfa] at h2; simp at h2
    | vstr s => rw [hfa] at h2; simp at h2
    | vdate d => rw [hfa] at h2; simp at h2

/-- Every row of a cleaned table passes the outlier filter and is the
row-pass image of some raw row. -/
theorem mem_cleanData (y : Int) (t : Table) (s : Row) (hs : s ∈ cleanData y t) :
    passesOutlier s = true ∧
      ∃ r, s = cleanRow y (resaleMedian (monthStep t)) (areaMedian (monthStep t)) r := by
  rcases eq_or_ne t [] with rfl | hne
  · simp [cleanData] at hs
  · rw [cleanData_eq_filter_map y t hne] at hs
    have h2 := List.mem_filter.mp hs
    obtain ⟨r, _, hr⟩ := List.mem_map.mp h2.1
    exact ⟨h2.2, r, hr.symm⟩

/-- A second row pass over an already-cleaned row only recomputes
`lease_remaining`: type coercions, the fill, the division, the date
parses and the town normalization are all fixpoints there. -/
theorem cleanRow_second_pass (y2 : Int) (mp' ma' : Option ℚ) (s : Row)
    (hq : ∃ q, s.resale_price = .vnum q)
    (ha : ∃ a, s.floor_area_sqm = .vnum a)
    (hm : parseDate s.month = s.month)
    (hl : parseDate s.lease_commence_date = s.lease_commence_date)
    (ht : titleV s.town = s.town)
    (hp : s.price_per_sqm = divV s.resale_price s.floor_area_sqm) :
    cleanRow y2 mp' ma' s =
      { s with lease_remaining := leaseVal y2 s.lease_commence_date } := by
  obtain ⟨q, hq⟩ := hq
  obtain ⟨a, ha⟩ := ha
  obtain ⟨m, tw, ft, fa, rp, lcd, pps, lr⟩ := s
  simp only at hq ha hm hl ht hp
  subst hq ha hp
  simp only [cleanRow, monthRow, numRow, priceRow, leaseRow, townRow, toNumeric, fillWith]
  rw [hm, hl, ht]

/-- A second `_clean_data` pass over a cleaned table keeps every row
and only recomputes `lease_remaining` from the (possibly different)
current year. -/
theorem cleanData_second_pass (y1 y2 : Int) (t : Table) :
    cleanData y2 (cleanData y1 t) =
      (cleanData y1 t).map
        (fun s => { s with lease_remaining := leaseVal y2 s.lease_commence_date }) := by
  rcases eq_or_ne (cleanData y1 t) [] with h1 | h1
  · rw [h1]; rfl
  · rw [cleanData_eq_filter_map y2 (cleanData y1 t) h1]
    have hmap : (cleanData y1 t).map
        (cleanRow y2 (resaleMedian (monthStep (cleanData y1 t)))
          (areaMedian (monthStep (cleanData y1 t)))) =
        (cleanData y1 t).map
          (fun s => { s with lease_remaining := leaseVal y2 s.lease_commence_date }) := by
      apply List.map_congr_left
      intro s hs
      obtain ⟨hpass, r, rfl⟩ := mem_cleanData y1 t s hs
      obtain ⟨hq, ha⟩ := passesOutlier_fields _ hpass
      exact cleanRow_second_pass y2 _ _ _ hq ha
        (by rw [cleanRow_month, parseDate_idem])
        (by rw [cleanRow_lcd, parseDate_idem])
        (by rw [cleanRow_town, titleV_idem])
        rfl
    rw [hmap]
    apply List.filter_eq_self.mpr
    intro s hs
    obtain ⟨s₀, hs₀, rfl⟩ := List.mem_map.mp hs
    exact (mem_cleanData y1 t s₀ hs₀).1

/-- C9: applying `_clean_data` twice is idempotent on the outlier
filter and the normalizations — the second pass removes no row and
changes no cell other than `lease_remaining`, which is recomputed from
the current calendar year; with the same year the second pass is the
identity. -/
theorem claim9_clean_idempotent :
    (∀ (y1 y2 : Int) (t : Table),
        (cleanData y2 (cleanData y1 t)).map eraseLease =
          (cleanData y1 t).map eraseLease)
    ∧ (∀ (y : Int) (t : Table), cleanData y (cleanData y t) = cleanData y t) := by
  constructor
  · intro y1 y2 t
    rw [cleanData_second_pass y1 y2 t, List.map_map]
    exact List.map_congr_left fun s _ => rfl
  · intro y t
    rw [cleanData_second_pass y y t]
    have hid : ∀ s ∈ cleanData y t,
        ({ s with lease_remaining := leaseVal y s.lease_commence_date } : Row) = s := by
      intro s hs
      obtain ⟨_, r, rfl⟩ := mem_cleanData y t s hs
      rfl
    rw [List.map_congr_left hid]
    exact List.map_id' (cleanData y t)

end HDB
